import Mathlib

/-!
# Chess: peer-to-peer connection header and application helpers

A shallow embedding of the declarations of `ChessNetworking.h` and
`ChessApplication.h`, followed by the properties proved about them.

Conventions of the embedding:
* scoped enums become inductive types with an explicit conversion to the
  value of the underlying integer type;
* `std::size_t` constants are natural numbers, `int` values are integers
  checked against the 32-bit range wherever arithmetic is done on them;
* the object state of `P2PChessConnection` is a structure, a `const` member
  function is a function of the state, a mutating one returns the new state.
-/

namespace Chess

/-! ## ChessNetworking.h : message kinds and sizes -/

/-- The scoped enum `P2PChessConnection::NetMessageType : uint8_t`. -/
inductive NetMessageType where
  | INVALID
  | WHICH_SIDE
  | MOVE
  | RESIGN
  | DRAW_OFFER
  | REMATCH_REQUEST
  | REMATCH_ACCEPT
  deriving DecidableEq, Repr

namespace NetMessageType

/-- Value of the underlying `uint8_t`: `INVALID = 0`, every later enumerator is
the previous one plus one. -/
def toByte : NetMessageType → Nat
  | INVALID => 0
  | WHICH_SIDE => 1
  | MOVE => 2
  | RESIGN => 3
  | DRAW_OFFER => 4
  | REMATCH_REQUEST => 5
  | REMATCH_ACCEPT => 6

/-- The enumerator whose underlying value is the byte `b`, if there is one. -/
def ofByte : Nat → Option NetMessageType
  | 0 => some INVALID
  | 1 => some WHICH_SIDE
  | 2 => some MOVE
  | 3 => some RESIGN
  | 4 => some DRAW_OFFER
  | 5 => some REMATCH_REQUEST
  | 6 => some REMATCH_ACCEPT
  | _ => none

/-- All enumerators, in declaration order. -/
def all : List NetMessageType :=
  [INVALID, WHICH_SIDE, MOVE, RESIGN, DRAW_OFFER, REMATCH_REQUEST, REMATCH_ACCEPT]

/-- The kinds that are put on the wire: every enumerator except the
sentinel `INVALID`. -/
def sendable : List NetMessageType :=
  [WHICH_SIDE, MOVE, RESIGN, DRAW_OFFER, REMATCH_REQUEST, REMATCH_ACCEPT]

end NetMessageType

/-- Number of values of a `uint8_t`. -/
def UINT8_RANGE : Nat := 2 ^ 8

/-- Number of values of a 64-bit `std::size_t`. -/
def SIZE_RANGE : Nat := 2 ^ 64

/-- The constant `sizeof(NetMessageType)`: the enum has underlying type `uint8_t`. -/
def sizeofNetMessageType : Nat := 1

/-- The constant `s_moveMessageSize {sizeof(NetMessageType) + 6}`. -/
def s_moveMessageSize : Nat := (sizeofNetMessageType + 6) % SIZE_RANGE

/-- The constant `s_ResignMessageSize {sizeof(NetMessageType)}`. -/
def s_ResignMessageSize : Nat := sizeofNetMessageType % SIZE_RANGE

/-- The constant `s_DrawOfferMessageSize {sizeof(NetMessageType)}`. -/
def s_DrawOfferMessageSize : Nat := sizeofNetMessageType % SIZE_RANGE

/-- The constant `s_rematchMessageSize {sizeof(NetMessageType)}`, used both for a
rematch request and for accepting one. -/
def s_rematchMessageSize : Nat := sizeofNetMessageType % SIZE_RANGE

/-- The constant `s_WhichSideMessageSize {sizeof(NetMessageType) + 1}`. -/
def s_WhichSideMessageSize : Nat := (sizeofNetMessageType + 1) % SIZE_RANGE

/-- The size constant the header attaches to each message kind (through the
constant names and the layout comments next to them). `INVALID` is never sent
and has no size constant. -/
def messageSize : NetMessageType → Option Nat
  | .INVALID => none
  | .WHICH_SIDE => some s_WhichSideMessageSize
  | .MOVE => some s_moveMessageSize
  | .RESIGN => some s_ResignMessageSize
  | .DRAW_OFFER => some s_DrawOfferMessageSize
  | .REMATCH_REQUEST => some s_rematchMessageSize
  | .REMATCH_ACCEPT => some s_rematchMessageSize

/-- Number of bytes after the tag, computed in the integers so that a size
smaller than the tag would show up as a negative number. -/
def payloadLength (k : NetMessageType) : Option Int :=
  (messageSize k).map fun n => (n : Int) - (sizeofNetMessageType : Int)

/-! ## ChessNetworking.h : the error value -/

/-- The contents a `char const*` denotes when it is read as a C string: the
characters of the buffer up to, and without, the first NUL character. -/
def c_str (s : String) : String :=
  String.mk (s.data.takeWhile fun c => c != Char.ofNat 0)

/-- The data members of `class networkException`. -/
structure networkException where
  m_errorMsg : String
  m_winsockError : Int
  m_hasValidWinsockError : Bool
  deriving DecidableEq, Repr

namespace networkException

/-- The constructor `networkException(std::string_view msg, int winsockError)`:
the member initialisers copy `msg` and `winsockError` and clear the flag, the
body sets the flag when `winsockError != 0`. -/
def ctor (msg : String) (winsockError : Int) : networkException :=
  let self : networkException :=
    { m_errorMsg := msg, m_winsockError := winsockError, m_hasValidWinsockError := false }
  if winsockError != 0 then { self with m_hasValidWinsockError := true } else self

/-- A construction site: `networkException(msg)` when no code is supplied, in
which case the default argument `winsockError = 0` is used, and
`networkException(msg, code)` when one is. -/
def construct (msg : String) (supplied : Option Int) : networkException :=
  match supplied with
  | none => ctor msg 0
  | some code => ctor msg code

/-- The member `what()`, which returns `m_errorMsg.c_str()`. -/
def what (self : networkException) : String := c_str self.m_errorMsg

/-- The member `getWinsockError()`. -/
def getWinsockError (self : networkException) : Int := self.m_winsockError

/-- The member `hasValidWinsockError()`. -/
def hasValidWinsockError (self : networkException) : Bool := self.m_hasValidWinsockError

end networkException

/-! ## ChessNetworking.h : the connection object -/

/-- The scoped enum `P2PChessConnection::ConnectionType : uint8_t`;
`INVALID` is used when not connected to anyone. -/
inductive ConnectionType where
  | INVALID
  | SERVER
  | CLIENT
  deriving DecidableEq, Repr

namespace ConnectionType

/-- Value of the underlying `uint8_t`: `INVALID = 0, SERVER, CLIENT`. -/
def toByte : ConnectionType → Nat
  | INVALID => 0
  | SERVER => 1
  | CLIENT => 2

end ConnectionType

/-- The winsock handle type `SOCKET`, an unsigned integer. -/
abbrev SOCKET := Nat

/-- The data members of `class P2PChessConnection`. The winsock record type
`WSADATA` comes from the platform headers and is left as a type argument. -/
structure P2PChessConnection (WSADATA : Type) where
  m_connectType : ConnectionType
  m_winSockData : WSADATA
  m_socket : SOCKET
  m_ipv4OfPeer : String
  m_wasConnectionLostOrClosed : Bool
  deriving DecidableEq, Repr

namespace P2PChessConnection

variable {WSADATA : Type}

/-- The member `isUserConnected() const`. -/
def isUserConnected (self : P2PChessConnection WSADATA) : Bool :=
  self.m_connectType != ConnectionType.INVALID

/-- The member `isUserServerOrClient() const`. -/
def isUserServerOrClient (self : P2PChessConnection WSADATA) : ConnectionType :=
  self.m_connectType

/-- The member `getIpv4OfPeer() const`. -/
def getIpv4OfPeer (self : P2PChessConnection WSADATA) : String :=
  self.m_ipv4OfPeer

/-- The member `wasConnectionClosedOrLost() const`. -/
def wasConnectionClosedOrLost (self : P2PChessConnection WSADATA) : Bool :=
  self.m_wasConnectionLostOrClosed

/-- The member `resetWasConnectionLostBool()`, which assigns `false` to
`m_wasConnectionLostOrClosed`. -/
def resetWasConnectionLostBool (self : P2PChessConnection WSADATA) :
    P2PChessConnection WSADATA :=
  { self with m_wasConnectionLostOrClosed := false }

end P2PChessConnection

/-- The four status queries, the `const` member functions with a body in the header. -/
inductive StatusQuery where
  | isUserConnected
  | isUserServerOrClient
  | getIpv4OfPeer
  | wasConnectionClosedOrLost
  deriving DecidableEq, Repr

/-- What a status query hands back to its caller. -/
inductive QueryAnswer where
  | flag (b : Bool)
  | role (r : ConnectionType)
  | address (s : String)
  deriving DecidableEq, Repr

namespace StatusQuery

variable {WSADATA : Type}

/-- One call of a status query: the answer and the object state after the call.
A `const` member function cannot assign to a data member, so the state after
the call is the state it was called on. -/
def call (q : StatusQuery) (c : P2PChessConnection WSADATA) :
    QueryAnswer × P2PChessConnection WSADATA :=
  match q with
  | isUserConnected => (.flag c.isUserConnected, c)
  | isUserServerOrClient => (.role c.isUserServerOrClient, c)
  | getIpv4OfPeer => (.address c.getIpv4OfPeer, c)
  | wasConnectionClosedOrLost => (.flag c.wasConnectionClosedOrLost, c)

/-- A finite sequence of status queries, called one after the other: the
answers in call order and the final state. -/
def callAll : List StatusQuery → P2PChessConnection WSADATA →
    List QueryAnswer × P2PChessConnection WSADATA
  | [], c => ([], c)
  | q :: qs, c =>
    let r := q.call c
    let rs := callAll qs r.2
    (r.1 :: rs.1, rs.2)

end StatusQuery

/-- The operations that have a body in the header: the four status queries and
`resetWasConnectionLostBool`. -/
inductive HeaderOp where
  | query (q : StatusQuery)
  | resetWasConnectionLostBool
  deriving DecidableEq, Repr

/-- State of the connection object after one header-defined operation. -/
def HeaderOp.run {WSADATA : Type} (op : HeaderOp) (c : P2PChessConnection WSADATA) :
    P2PChessConnection WSADATA :=
  match op with
  | .query q => (q.call c).2
  | .resetWasConnectionLostBool => c.resetWasConnectionLostBool

/-! ## The message codec behind `sendMessage` and `recieveMessageIfAvailable` -/

/-- One byte on the wire. -/
abbrev Byte := Fin 256

/-- The tag byte of a message kind: the enumerator converted to `uint8_t`. -/
def tagByte (k : NetMessageType) : Byte := Fin.ofNat (k.toByte % UINT8_RANGE)

/-- Modelled from the spec: the body of `sendMessage` is in ChessNetworking.cpp,
which is not among the sources. The buffer it builds is the tag byte followed
by the payload bytes; a payload whose length is not the fixed size of the kind
minus the one-byte tag is rejected (`none`), and so is the kind `INVALID`,
which has no size and is never sent. -/
def encode (messageType : NetMessageType) (message : List Byte) : Option (List Byte) :=
  if payloadLength messageType = some (message.length : Int) then
    some (tagByte messageType :: message)
  else
    none

/-- Modelled from the spec: decoding of a complete tag+payload buffer, which is
not among the sources. The first byte is the kind tag, the bytes after it are
the payload; the buffer is accepted when the tag is one of the six sendable
kinds and the payload has the fixed length of that kind. -/
def decode (buffer : List Byte) : Option (NetMessageType × List Byte) :=
  match buffer with
  | [] => none
  | tag :: payload =>
    match NetMessageType.ofByte tag.val with
    | none => none
    | some k =>
      if payloadLength k = some (payload.length : Int) then some (k, payload) else none

/-- Modelled from the spec: the read path of `recieveMessageIfAvailable`, whose
body is in ChessNetworking.cpp, on the bytes that have arrived. It reads one
byte (the tag), looks up the remaining length in the fixed-size table, reads
exactly that many more bytes and returns the full tag+payload buffer together
with the bytes left unread; `none` when nothing is pending, the tag has no
size, or fewer bytes than the table asks for have arrived. -/
def recieveMessage (pending : List Byte) : Option (List Byte × List Byte) :=
  match pending with
  | [] => none
  | tag :: rest =>
    match (NetMessageType.ofByte tag.val).bind messageSize with
    | none => none
    | some size =>
      let n := size - sizeofNetMessageType
      if n ≤ rest.length then some (tag :: rest.take n, rest.drop n) else none

/-! ## ChessApplication.h : texture indices -/

/-- The constant `NUM_OF_PIECE_TEXTURES`: 6 types of pieces * 2 for both sides. -/
def NUM_OF_PIECE_TEXTURES : Nat := 12

/-- The unscoped enum `ChessApp::TextureIndices : Uint32`. -/
inductive TextureIndices where
  | WPAWN | WKNIGHT | WROOK | WBISHOP | WQUEEN | WKING
  | BPAWN | BKNIGHT | BROOK | BBISHOP | BQUEEN | BKING
  | INVALID
  deriving DecidableEq, Repr

namespace TextureIndices

/-- The implicit conversion to the underlying `Uint32`: the first enumerator
is 0 and each later one is the previous one plus one. -/
def toNat : TextureIndices → Nat
  | WPAWN => 0
  | WKNIGHT => 1
  | WROOK => 2
  | WBISHOP => 3
  | WQUEEN => 4
  | WKING => 5
  | BPAWN => 6
  | BKNIGHT => 7
  | BROOK => 8
  | BBISHOP => 9
  | BQUEEN => 10
  | BKING => 11
  | INVALID => 12

/-- The twelve enumerators that name a piece, in declaration order. -/
def pieces : List TextureIndices :=
  [WPAWN, WKNIGHT, WROOK, WBISHOP, WQUEEN, WKING,
   BPAWN, BKNIGHT, BROOK, BBISHOP, BQUEEN, BKING]

end TextureIndices

/-- A `std::array<T, N>`: exactly `N` elements. -/
def StdArray (T : Type) (N : Nat) : Type := { xs : List T // xs.length = N }

/-- Element access `a[i]`: the element when `i` is in bounds, `none` when the
access is out of bounds. -/
def StdArray.at? {T : Type} {N : Nat} (a : StdArray T N) (i : Nat) : Option T :=
  a.val.get? i

/-- The type of `ChessApp::m_pieceTextures`; the element type `SDL_Texture*`
comes from the SDL headers and is left as a type argument. -/
abbrev PieceTextures (SDL_TexturePtr : Type) : Type :=
  StdArray SDL_TexturePtr NUM_OF_PIECE_TEXTURES

/-! ## ChessApplication.h : board positions and indices -/

/-- Smallest value of a 32-bit `int`. -/
def INT_MIN : Int := -(2 ^ 31)

/-- Largest value of a 32-bit `int`. -/
def INT_MAX : Int := 2 ^ 31 - 1

/-- The result of a signed `int` operation whose mathematical value is `v`:
the value when it is representable, `none` on signed overflow. -/
def checkedInt (v : Int) : Option Int :=
  if INT_MIN ≤ v ∧ v ≤ INT_MAX then some v else none

/-- Modelled from the spec: `Vec2i` is declared in Vector2i.h, which is not
among the sources. It is a pair of `int` members `x` (the file) and `y` (the
rank), initialised in that order by `{index % 8, index / 8}`. -/
structure Vec2i where
  x : Int
  y : Int
  deriving DecidableEq, Repr

/-- The helper `ChessApp::chessPos2Index`, which returns `pos.y * 8 + pos.x`;
`none` when the multiplication or the addition overflows `int`. -/
def chessPos2Index (pos : Vec2i) : Option Int :=
  (checkedInt (pos.y * 8)).bind fun m => checkedInt (m + pos.x)

/-- The helper `ChessApp::index2ChessPos`, which returns `{index % 8, index / 8}`,
with the truncating division and remainder of C++. -/
def index2ChessPos (index : Int) : Vec2i :=
  { x := Int.tmod index 8, y := Int.tdiv index 8 }

/-! ## Shared lemmas -/

theorem NetMessageType.mem_sendable_iff (k : NetMessageType) :
    k ∈ NetMessageType.sendable ↔ k ≠ NetMessageType.INVALID := by
  cases k <;> simp [NetMessageType.sendable]

theorem NetMessageType.toByte_le (k : NetMessageType) : k.toByte ≤ 6 := by
  cases k <;> simp [NetMessageType.toByte]

theorem NetMessageType.ofByte_toByte (k : NetMessageType) :
    NetMessageType.ofByte k.toByte = some k := by
  cases k <;> rfl

theorem NetMessageType.ofByte_eq_none (b : Nat) (h : 6 < b) :
    NetMessageType.ofByte b = none := by
  match b, h with
  | n + 7, _ => rfl

theorem NetMessageType.ofByte_eq_some_iff (b : Nat) (k : NetMessageType) :
    NetMessageType.ofByte b = some k ↔ k.toByte = b := by
  constructor
  · intro h
    by_cases hb : b ≤ 6
    · interval_cases b <;> simp [NetMessageType.ofByte] at h <;> subst h <;> rfl
    · rw [NetMessageType.ofByte_eq_none b (by omega)] at h
      cases h
  · intro h
    rw [← h]
    exact NetMessageType.ofByte_toByte k

/-! ## Properties of the message kinds and sizes -/

/-- C2: the total length of a message is a function of its kind alone and is the
table WHICH_SIDE = 2, MOVE = 7, RESIGN = 1, DRAW_OFFER = 1, REMATCH_REQUEST =
REMATCH_ACCEPT = 1, with `sizeof(NetMessageType) = 1`; every size is at least 1,
and the payload length (size minus the tag) is 1, 6, 0, 0, 0, 0, a subtraction
that never goes below zero. -/
theorem message_size_table :
    sizeofNetMessageType = 1 ∧
    (s_WhichSideMessageSize = 2 ∧ s_moveMessageSize = 7 ∧ s_ResignMessageSize = 1 ∧
      s_DrawOfferMessageSize = 1 ∧ s_rematchMessageSize = 1) ∧
    NetMessageType.sendable.map messageSize
      = [some 2, some 7, some 1, some 1, some 1, some 1] ∧
    (∀ k, (messageSize k).isSome ↔ k ∈ NetMessageType.sendable) ∧
    (∀ k n, messageSize k = some n → 1 ≤ n ∧ sizeofNetMessageType ≤ n) ∧
    NetMessageType.sendable.map payloadLength
      = [some 1, some 6, some 0, some 0, some 0, some 0] ∧
    (∀ k d, payloadLength k = some d → 0 ≤ d) := by
  refine ⟨rfl, ⟨by decide, by decide, by decide, by decide, by decide⟩, by decide, ?_, ?_,
    by decide, ?_⟩
  · intro k
    cases k <;> simp [messageSize, NetMessageType.sendable]
  · intro k n h
    cases k <;> simp [messageSize] at h <;> subst h <;> decide
  · intro k d h
    cases k <;> simp [payloadLength, messageSize] at h <;> subst h <;> decide

/-- C7: the message kind is a closed set of seven tags; the conversion to the
one-byte wire tag is injective, sends INVALID to 0 and the six sendable kinds to
1..6 in declaration order, so no sendable kind has tag 0 and every tag fits in
one byte; a byte converts back to a kind exactly when it is at most 6, and then
to the kind whose tag it is. -/
theorem tag_conversion :
    NetMessageType.all.length = 7 ∧ NetMessageType.all.Nodup ∧
    (∀ k, k ∈ NetMessageType.all) ∧
    Function.Injective NetMessageType.toByte ∧
    NetMessageType.INVALID.toByte = 0 ∧
    NetMessageType.sendable.map NetMessageType.toByte = [1, 2, 3, 4, 5, 6] ∧
    (∀ k, k ∈ NetMessageType.sendable ↔ k ≠ NetMessageType.INVALID) ∧
    (∀ k : NetMessageType, k.toByte = 0 ↔ k = NetMessageType.INVALID) ∧
    (∀ k : NetMessageType, k.toByte < UINT8_RANGE) ∧
    (∀ b, (NetMessageType.ofByte b).isSome ↔ b ≤ 6) ∧
    (∀ b k, NetMessageType.ofByte b = some k ↔ k.toByte = b) := by
  refine ⟨rfl, by decide, ?_, ?_, rfl, rfl, NetMessageType.mem_sendable_iff, ?_, ?_, ?_,
    NetMessageType.ofByte_eq_some_iff⟩
  · intro k
    cases k <;> simp [NetMessageType.all]
  · intro a b h
    have ha := NetMessageType.ofByte_toByte a
    rw [h, NetMessageType.ofByte_toByte b] at ha
    exact (Option.some.inj ha).symm
  · intro k
    cases k <;> simp [NetMessageType.toByte]
  · intro k
    have := NetMessageType.toByte_le k
    simp only [UINT8_RANGE]
    omega
  · intro b
    constructor
    · intro h
      by_contra hb
      rw [NetMessageType.ofByte_eq_none b (by omega)] at h
      cases h
    · intro hb
      interval_cases b <;> rfl

/-! ## Properties of the error value -/

/-- C3, as stated, fails: for the message made of the characters a, NUL, b and
the supplied code 0, `what()` read as a C string is not the message, and
`hasValidWinsockError()` is false although a code was supplied. -/
theorem networkException_supplied_zero_counterexample :
    (networkException.construct (String.mk [Char.ofNat 97, Char.ofNat 0, Char.ofNat 98])
        (some 0)).what
      ≠ String.mk [Char.ofNat 97, Char.ofNat 0, Char.ofNat 98] ∧
    (some (0 : Int)).isSome = true ∧
    (networkException.construct (String.mk [Char.ofNat 97, Char.ofNat 0, Char.ofNat 98])
        (some 0)).hasValidWinsockError = false := by
  decide

/-- C3, amended: `networkException(msg, code)` stores the message unchanged,
`what()` is the stored message read as a C string (the message itself when it
has no NUL character), `getWinsockError()` is `code`, and
`hasValidWinsockError()` is true exactly when `code` is not 0; constructed
without a code, the code is 0 and `hasValidWinsockError()` is false. -/
theorem networkException_contract (msg : String) (code : Int) :
    (networkException.ctor msg code).m_errorMsg = msg ∧
    (networkException.ctor msg code).what = c_str msg ∧
    ((∀ c ∈ msg.data, c ≠ Char.ofNat 0) → (networkException.ctor msg code).what = msg) ∧
    (networkException.ctor msg code).getWinsockError = code ∧
    ((networkException.ctor msg code).hasValidWinsockError = true ↔ code ≠ 0) ∧
    networkException.construct msg (some code) = networkException.ctor msg code ∧
    (networkException.construct msg none).getWinsockError = 0 ∧
    (networkException.construct msg none).hasValidWinsockError = false := by
  have hmsg : (networkException.ctor msg code).m_errorMsg = msg := by
    unfold networkException.ctor
    split <;> rfl
  refine ⟨hmsg, ?_, ?_, ?_, ?_, rfl, rfl, rfl⟩
  · simp only [networkException.what, hmsg]
  · intro h
    simp only [networkException.what, hmsg, c_str]
    have : msg.data.takeWhile (fun c => c != Char.ofNat 0) = msg.data := by
      rw [List.takeWhile_eq_self_iff]
      intro x hx
      simpa using h x hx
    rw [this]
  · unfold networkException.ctor networkException.getWinsockError
    split <;> rfl
  · unfold networkException.ctor networkException.hasValidWinsockError
    by_cases hc : code = 0 <;> simp [hc]

/-- C3, amended, at a concrete failure: the message "connect failed" has no NUL
character and comes back from `what()`, and the code 10061 is reported as
present. -/
theorem networkException_contract_witness :
    (∀ c ∈ "connect failed".data, c ≠ Char.ofNat 0) ∧
    (networkException.ctor "connect failed" 10061).what = "connect failed" ∧
    (networkException.ctor "connect failed" 10061).hasValidWinsockError = true :=
  ⟨by decide,
    (networkException_contract "connect failed" 10061).2.2.1 (by decide),
    (networkException_contract "connect failed" 10061).2.2.2.2.1.2 (by decide)⟩

/-! ## Properties of the connection object -/

/-- C4: `resetWasConnectionLostBool()` leaves the sticky flag cleared whatever it
was before, is idempotent, and changes nothing else: role, winsock data, socket
handle and peer address are the same before and after. -/
theorem resetWasConnectionLostBool_frame {WSADATA : Type} (c : P2PChessConnection WSADATA) :
    c.resetWasConnectionLostBool.wasConnectionClosedOrLost = false ∧
    c.resetWasConnectionLostBool.resetWasConnectionLostBool = c.resetWasConnectionLostBool ∧
    c.resetWasConnectionLostBool.m_connectType = c.m_connectType ∧
    c.resetWasConnectionLostBool.m_winSockData = c.m_winSockData ∧
    c.resetWasConnectionLostBool.m_socket = c.m_socket ∧
    c.resetWasConnectionLostBool.m_ipv4OfPeer = c.m_ipv4OfPeer ∧
    c.resetWasConnectionLostBool.isUserConnected = c.isUserConnected ∧
    c.resetWasConnectionLostBool.isUserServerOrClient = c.isUserServerOrClient ∧
    c.resetWasConnectionLostBool.getIpv4OfPeer = c.getIpv4OfPeer :=
  ⟨rfl, rfl, rfl, rfl, rfl, rfl, rfl, rfl, rfl⟩

/-- C5: `isUserConnected()` is true exactly when the role returned by
`isUserServerOrClient()` is not INVALID, that is exactly when it is SERVER or
CLIENT; the three roles are pairwise distinct (underlying values 0, 1, 2) and
the role is exactly one of them. -/
theorem isUserConnected_iff_role {WSADATA : Type} (c : P2PChessConnection WSADATA) :
    (c.isUserConnected = true ↔ c.isUserServerOrClient ≠ ConnectionType.INVALID) ∧
    (c.isUserConnected = true ↔
      c.isUserServerOrClient = ConnectionType.SERVER ∨
      c.isUserServerOrClient = ConnectionType.CLIENT) ∧
    (c.isUserConnected = false ↔ c.isUserServerOrClient = ConnectionType.INVALID) ∧
    [ConnectionType.INVALID, ConnectionType.SERVER, ConnectionType.CLIENT].Nodup ∧
    [ConnectionType.INVALID, ConnectionType.SERVER, ConnectionType.CLIENT].map
      ConnectionType.toByte = [0, 1, 2] ∧
    [ConnectionType.INVALID, ConnectionType.SERVER, ConnectionType.CLIENT].count
      c.isUserServerOrClient = 1 := by
  obtain ⟨role, w, sock, ip, lost⟩ := c
  simp only [P2PChessConnection.isUserConnected, P2PChessConnection.isUserServerOrClient]
  cases role <;> decide

/-- C6: when the sticky flag is set, any finite sequence of the status queries
leaves the connection state unchanged, answers every query, and
`wasConnectionClosedOrLost()` is still true afterwards; among the operations
defined in the header, `resetWasConnectionLostBool` is the only one after which
the flag is cleared. -/
theorem lost_flag_sticky {WSADATA : Type} (c : P2PChessConnection WSADATA)
    (h : c.wasConnectionClosedOrLost = true) :
    (∀ qs : List StatusQuery,
      (StatusQuery.callAll qs c).2 = c ∧
      (StatusQuery.callAll qs c).2.wasConnectionClosedOrLost = true ∧
      (StatusQuery.callAll qs c).1.length = qs.length) ∧
    (∀ op : HeaderOp,
      (op.run c).wasConnectionClosedOrLost = false ↔ op = HeaderOp.resetWasConnectionLostBool) := by
  have hcall : ∀ (q : StatusQuery) (d : P2PChessConnection WSADATA), (q.call d).2 = d := by
    intro q d
    cases q <;> rfl
  have hall : ∀ (qs : List StatusQuery) (d : P2PChessConnection WSADATA),
      (StatusQuery.callAll qs d).2 = d ∧ (StatusQuery.callAll qs d).1.length = qs.length := by
    intro qs
    induction qs with
    | nil => intro d; exact ⟨rfl, rfl⟩
    | cons q qs ih =>
      intro d
      have := ih (q.call d).2
      simp only [StatusQuery.callAll, List.length_cons]
      rw [this.1, this.2, hcall]
      exact ⟨rfl, rfl⟩
  refine ⟨fun qs => ⟨(hall qs c).1, ?_, (hall qs c).2⟩, ?_⟩
  · rw [(hall qs c).1]
    exact h
  · intro op
    cases op with
    | query q =>
      simp only [HeaderOp.run, hcall, h]
      simp
    | resetWasConnectionLostBool =>
      simp [HeaderOp.run, P2PChessConnection.resetWasConnectionLostBool,
        P2PChessConnection.wasConnectionClosedOrLost]

/-- C6 at a concrete state: a host whose peer at 127.0.0.1 has gone away, with
the flag set, polled three times and then given each header operation. -/
theorem lost_flag_sticky_witness :
    ({ m_connectType := ConnectionType.SERVER, m_winSockData := (), m_socket := 4,
       m_ipv4OfPeer := "127.0.0.1", m_wasConnectionLostOrClosed := true } :
      P2PChessConnection Unit).wasConnectionClosedOrLost = true ∧
    (StatusQuery.callAll
      [StatusQuery.wasConnectionClosedOrLost, StatusQuery.isUserConnected,
        StatusQuery.wasConnectionClosedOrLost]
      ({ m_connectType := ConnectionType.SERVER, m_winSockData := (), m_socket := 4,
         m_ipv4OfPeer := "127.0.0.1", m_wasConnectionLostOrClosed := true } :
        P2PChessConnection Unit)).2.wasConnectionClosedOrLost = true :=
  ⟨rfl,
    ((lost_flag_sticky
      ({ m_connectType := ConnectionType.SERVER, m_winSockData := (), m_socket := 4,
         m_ipv4OfPeer := "127.0.0.1", m_wasConnectionLostOrClosed := true } :
        P2PChessConnection Unit) rfl).1 _).2.1⟩

/-! ## Properties of the message codec -/

theorem tagByte_val (k : NetMessageType) : (tagByte k).val = k.toByte := by
  cases k <;> rfl

theorem payloadLength_eq_some_iff (k : NetMessageType) (n : Nat) :
    payloadLength k = some (n : Int) ↔ messageSize k = some (n + sizeofNetMessageType) := by
  cases k <;> simp [payloadLength, messageSize, s_WhichSideMessageSize, s_moveMessageSize,
    s_ResignMessageSize, s_DrawOfferMessageSize, s_rematchMessageSize, sizeofNetMessageType,
    SIZE_RANGE] <;> omega

/-- C1: for every sendable kind and every payload of that kind's fixed payload
length, `sendMessage` builds the tag byte followed by the payload bytes, and
decoding that buffer gives back the same kind and the same payload bytes; the
receive path reads exactly that buffer off the pending bytes, whatever follows
it; a MOVE buffer is the tag 2 followed by fromFile, fromRank, toFile, toRank,
promotionKind, moveKind in that order. -/
theorem decode_encode_roundtrip (k : NetMessageType) (payload : List Byte)
    (hk : k ∈ NetMessageType.sendable)
    (hlen : payloadLength k = some (payload.length : Int)) :
    encode k payload = some (tagByte k :: payload) ∧
    (tagByte k).val = k.toByte ∧ (tagByte k).val ≠ 0 ∧
    decode (tagByte k :: payload) = some (k, payload) ∧
    (encode k payload).bind decode = some (k, payload) ∧
    (∀ more : List Byte,
      recieveMessage (tagByte k :: payload ++ more) = some (tagByte k :: payload, more)) ∧
    (∀ fromFile fromRank toFile toRank promotionKind moveKind : Byte,
      encode NetMessageType.MOVE [fromFile, fromRank, toFile, toRank, promotionKind, moveKind]
        = some [2, fromFile, fromRank, toFile, toRank, promotionKind, moveKind] ∧
      decode [2, fromFile, fromRank, toFile, toRank, promotionKind, moveKind]
        = some (NetMessageType.MOVE,
            [fromFile, fromRank, toFile, toRank, promotionKind, moveKind])) := by
  have henc : encode k payload = some (tagByte k :: payload) := by
    simp [encode, hlen]
  have hdec : decode (tagByte k :: payload) = some (k, payload) := by
    simp [decode, tagByte_val, NetMessageType.ofByte_toByte, hlen]
  refine ⟨henc, tagByte_val k, ?_, hdec, ?_, ?_, ?_⟩
  · have hne := (NetMessageType.mem_sendable_iff k).1 hk
    rw [tagByte_val]
    cases k <;> simp [NetMessageType.toByte] at hne ⊢
  · rw [henc]
    exact hdec
  · intro more
    have hsize := (payloadLength_eq_some_iff k payload.length).1 hlen
    simp only [recieveMessage, List.cons_append, tagByte_val, NetMessageType.ofByte_toByte,
      Option.some_bind, hsize, Nat.add_sub_cancel, List.length_append, Nat.le_add_right,
      if_true, List.take_left, List.drop_left]
  · intro fromFile fromRank toFile toRank promotionKind moveKind
    exact ⟨rfl, rfl⟩

/-- C1 on the move g2-g4: fromFile 6, fromRank 1, toFile 6, toRank 3,
with the byte 0 for the promotion kind and for the move kind. -/
theorem decode_encode_roundtrip_witness :
    NetMessageType.MOVE ∈ NetMessageType.sendable ∧
    payloadLength NetMessageType.MOVE
      = some (([6, 1, 6, 3, 0, 0] : List Byte).length : Int) ∧
    (encode NetMessageType.MOVE [6, 1, 6, 3, 0, 0]).bind decode
      = some (NetMessageType.MOVE, [6, 1, 6, 3, 0, 0]) :=
  ⟨by decide, by decide,
    (decode_encode_roundtrip NetMessageType.MOVE [6, 1, 6, 3, 0, 0]
      (by decide) (by decide)).2.2.2.2.1⟩

/-! ## Properties of the texture indices -/

/-- C8: indexing the piece-texture arrays by a texture index is in bounds for
every piece: the twelve piece enumerators convert to distinct integers below
`NUM_OF_PIECE_TEXTURES` (12 = 6 * 2), together exactly 0..11, and the sentinel
INVALID converts to 12 = `NUM_OF_PIECE_TEXTURES`, which is out of bounds for an
array of that size. -/
theorem texture_index_in_bounds :
    NUM_OF_PIECE_TEXTURES = 12 ∧ NUM_OF_PIECE_TEXTURES = 6 * 2 ∧
    TextureIndices.pieces.length = 12 ∧
    (∀ t, t ∈ TextureIndices.pieces ↔ t ≠ TextureIndices.INVALID) ∧
    (∀ t ∈ TextureIndices.pieces, t.toNat < NUM_OF_PIECE_TEXTURES) ∧
    Function.Injective TextureIndices.toNat ∧
    TextureIndices.pieces.map TextureIndices.toNat = List.range 12 ∧
    TextureIndices.INVALID.toNat = 12 ∧
    TextureIndices.INVALID.toNat = NUM_OF_PIECE_TEXTURES ∧
    ¬ TextureIndices.INVALID.toNat < NUM_OF_PIECE_TEXTURES ∧
    (∀ (T : Type) (a : StdArray T NUM_OF_PIECE_TEXTURES) (t : TextureIndices),
      t ∈ TextureIndices.pieces → (a.at? t.toNat).isSome = true) ∧
    (∀ (T : Type) (a : StdArray T NUM_OF_PIECE_TEXTURES),
      a.at? TextureIndices.INVALID.toNat = none) := by
  have hlt : ∀ t ∈ TextureIndices.pieces, t.toNat < NUM_OF_PIECE_TEXTURES := by decide
  refine ⟨rfl, rfl, rfl, ?_, hlt, ?_, by decide, rfl, rfl, by decide, ?_, ?_⟩
  · intro t
    cases t <;> simp [TextureIndices.pieces]
  · intro a b h
    cases a <;> cases b <;> first | rfl | (exact absurd h (by decide))
  · intro T a t ht
    have h := hlt t ht
    rw [← a.property] at h
    simp only [StdArray.at?]
    rw [List.get?_eq_get h]
    rfl
  · intro T a
    simp only [StdArray.at?]
    rw [List.get?_eq_none]
    rw [a.property]
    decide

/-! ## Properties of the board index helpers -/

theorem tdiv_tmod_eight (i : Int) :
    Int.tdiv i 8 * 8 + Int.tmod i 8 = i ∧
    (0 ≤ i → Int.tdiv i 8 = i / 8 ∧ Int.tmod i 8 = i % 8) ∧
    (i ≤ 0 → Int.tdiv i 8 = -((-i) / 8) ∧ Int.tmod i 8 = -((-i) % 8)) := by
  have hsum : Int.tdiv i 8 * 8 + Int.tmod i 8 = i := Int.tdiv_add_tmod' i 8
  have hpos : ∀ j : Int, 0 ≤ j → Int.tdiv j 8 = j / 8 ∧ Int.tmod j 8 = j % 8 := fun j hj =>
    ⟨Int.tdiv_eq_ediv hj (by decide), Int.tmod_eq_emod hj (by decide)⟩
  refine ⟨hsum, hpos i, ?_⟩
  intro hi
  have hneg := hpos (-i) (by omega)
  have hd : Int.tdiv i 8 = -((-i) / 8) := by
    rw [← hneg.1, Int.neg_tdiv, Int.neg_neg]
  refine ⟨hd, ?_⟩
  rw [hd] at hsum
  omega

theorem checkedInt_of_range (v : Int) (h : INT_MIN ≤ v ∧ v ≤ INT_MAX) :
    checkedInt v = some v := by
  simp [checkedInt, h]

theorem chessPos2Index_index2ChessPos_of_int (index : Int)
    (h : INT_MIN ≤ index ∧ index ≤ INT_MAX) :
    chessPos2Index (index2ChessPos index) = some index := by
  obtain ⟨hsum, hpos, hneg⟩ := tdiv_tmod_eight index
  simp only [INT_MIN, INT_MAX] at h
  have h1 : checkedInt (Int.tdiv index 8 * 8) = some (Int.tdiv index 8 * 8) := by
    apply checkedInt_of_range
    simp only [INT_MIN, INT_MAX]
    rcases Int.le_total 0 index with hi | hi
    · have := hpos hi
      omega
    · have := hneg hi
      omega
  have h2 : checkedInt (Int.tdiv index 8 * 8 + Int.tmod index 8) = some index := by
    rw [hsum]
    apply checkedInt_of_range
    simpa only [INT_MIN, INT_MAX] using h
  simp only [chessPos2Index, index2ChessPos, h1, Option.some_bind, h2]

theorem index2ChessPos_on_board (index : Int) (h0 : 0 ≤ index) (h63 : index ≤ 63) :
    (0 ≤ (index2ChessPos index).x ∧ (index2ChessPos index).x ≤ 7) ∧
    (0 ≤ (index2ChessPos index).y ∧ (index2ChessPos index).y ≤ 7) := by
  obtain ⟨_, hpos, _⟩ := tdiv_tmod_eight index
  have := hpos h0
  simp only [index2ChessPos]
  omega

theorem chessPos2Index_of_on_board (pos : Vec2i)
    (hx : 0 ≤ pos.x ∧ pos.x ≤ 7) (hy : 0 ≤ pos.y ∧ pos.y ≤ 7) :
    chessPos2Index pos = some (pos.y * 8 + pos.x) ∧
    0 ≤ pos.y * 8 + pos.x ∧ pos.y * 8 + pos.x ≤ 63 ∧
    index2ChessPos (pos.y * 8 + pos.x) = pos := by
  obtain ⟨x, y⟩ := pos
  dsimp only at hx hy
  have h1 : checkedInt (y * 8) = some (y * 8) := by
    apply checkedInt_of_range
    simp only [INT_MIN, INT_MAX]
    omega
  have h2 : checkedInt (y * 8 + x) = some (y * 8 + x) := by
    apply checkedInt_of_range
    simp only [INT_MIN, INT_MAX]
    omega
  dsimp only at h1 h2 ⊢
  refine ⟨?_, by omega, by omega, ?_⟩
  · simp only [chessPos2Index, h1, Option.some_bind, h2]
  · obtain ⟨_, hpos, _⟩ := tdiv_tmod_eight (y * 8 + x)
    have := hpos (by omega)
    simp only [index2ChessPos, Vec2i.mk.injEq]
    omega

/-- Truncation toward zero on negative indices, and the two ends of `int`:
-9 splits into (-1, -1), and both `INT_MIN` and `INT_MAX` go through the round
trip without overflow. -/
theorem index2ChessPos_negative_examples :
    index2ChessPos (-9) = { x := -1, y := -1 } ∧
    chessPos2Index (index2ChessPos (-9)) = some (-9) ∧
    index2ChessPos INT_MIN = { x := 0, y := -268435456 } ∧
    chessPos2Index (index2ChessPos INT_MIN) = some INT_MIN ∧
    chessPos2Index (index2ChessPos INT_MAX) = some INT_MAX := by
  decide

/-- Overflow is visible in the embedding: a rank of 2^28 makes `pos.y * 8`
leave the range of `int`. -/
theorem chessPos2Index_overflow_example :
    chessPos2Index { x := 0, y := 268435456 } = none := by
  decide

/-- C9: on the board, `chessPos2Index` and `index2ChessPos` are inverse
bijections: for a position with both coordinates in 0..7 the index is
`pos.y * 8 + pos.x`, lies in 0..63, and `index2ChessPos` takes it back to the
position, so two distinct on-board positions never share an index; every index
in 0..63 is the index of the on-board position `index2ChessPos` gives. The
precondition is needed: the off-board (8,0) and the on-board (0,1) share
index 8. -/
theorem chessPos2Index_inverse_on_board (pos : Vec2i)
    (hx : 0 ≤ pos.x ∧ pos.x ≤ 7) (hy : 0 ≤ pos.y ∧ pos.y ≤ 7) :
    chessPos2Index pos = some (pos.y * 8 + pos.x) ∧
    0 ≤ pos.y * 8 + pos.x ∧ pos.y * 8 + pos.x ≤ 63 ∧
    (chessPos2Index pos).map index2ChessPos = some pos ∧
    (∀ q : Vec2i, (0 ≤ q.x ∧ q.x ≤ 7) → (0 ≤ q.y ∧ q.y ≤ 7) →
      chessPos2Index q = chessPos2Index pos → q = pos) ∧
    (∀ i : Int, 0 ≤ i → i ≤ 63 →
      (0 ≤ (index2ChessPos i).x ∧ (index2ChessPos i).x ≤ 7) ∧
      (0 ≤ (index2ChessPos i).y ∧ (index2ChessPos i).y ≤ 7) ∧
      chessPos2Index (index2ChessPos i) = some i) ∧
    (chessPos2Index { x := 8, y := 0 } = some 8 ∧
      chessPos2Index { x := 0, y := 1 } = some 8) := by
  obtain ⟨hidx, hlo, hhi, hback⟩ := chessPos2Index_of_on_board pos hx hy
  refine ⟨hidx, hlo, hhi, ?_, ?_, ?_, by decide⟩
  · rw [hidx, Option.map_some', hback]
  · intro q hqx hqy heq
    obtain ⟨hqidx, _, _, hqback⟩ := chessPos2Index_of_on_board q hqx hqy
    rw [hqidx, hidx] at heq
    rw [← hqback, ← hback, Option.some.inj heq]
  · intro i h0 h63
    obtain ⟨hix, hiy⟩ := index2ChessPos_on_board i h0 h63
    refine ⟨hix, hiy, chessPos2Index_index2ChessPos_of_int i ?_⟩
    simp only [INT_MIN, INT_MAX]
    omega

/-- C9 at the square g2 (file 6, rank 1): it has index 14 and comes back from
it, and no other on-board square, here g4, shares that index. -/
theorem chessPos2Index_inverse_on_board_witness :
    ((0 : Int) ≤ 6 ∧ (6 : Int) ≤ 7) ∧ ((0 : Int) ≤ 1 ∧ (1 : Int) ≤ 7) ∧
    chessPos2Index { x := 6, y := 1 } = some 14 ∧
    (chessPos2Index { x := 6, y := 1 }).map index2ChessPos = some { x := 6, y := 1 } ∧
    chessPos2Index (index2ChessPos 14) = some 14 :=
  ⟨by decide, by decide,
    (chessPos2Index_inverse_on_board { x := 6, y := 1 } (by decide) (by decide)).1,
    (chessPos2Index_inverse_on_board { x := 6, y := 1 } (by decide) (by decide)).2.2.2.1,
    ((chessPos2Index_inverse_on_board { x := 6, y := 1 } (by decide) (by decide)).2.2.2.2.2.1
      14 (by decide) (by decide)).2.2⟩

/-- C10: for every `int` index, negative ones included, with truncating division
and remainder, `chessPos2Index(index2ChessPos(index))` is `index`, that is
`(index / 8) * 8 + index % 8 == index`, and neither the multiplication nor the
addition overflows; for every index in 0..63 the position
`index2ChessPos(index) = (index % 8, index / 8)` is on the board. -/
theorem index2ChessPos_chessPos2Index (index : Int)
    (h : INT_MIN ≤ index ∧ index ≤ INT_MAX) :
    index2ChessPos index = { x := Int.tmod index 8, y := Int.tdiv index 8 } ∧
    chessPos2Index (index2ChessPos index) = some index ∧
    checkedInt ((index2ChessPos index).y * 8) = some (Int.tdiv index 8 * 8) ∧
    Int.tdiv index 8 * 8 + Int.tmod index 8 = index ∧
    (0 ≤ index → index ≤ 63 →
      (0 ≤ (index2ChessPos index).x ∧ (index2ChessPos index).x ≤ 7) ∧
      (0 ≤ (index2ChessPos index).y ∧ (index2ChessPos index).y ≤ 7)) := by
  have hround := chessPos2Index_index2ChessPos_of_int index h
  refine ⟨rfl, hround, ?_, (tdiv_tmod_eight index).1, ?_⟩
  · cases hmul : checkedInt ((index2ChessPos index).y * 8) with
    | none => simp [chessPos2Index, hmul] at hround
    | some m =>
      unfold checkedInt at hmul
      split at hmul
      · rw [← Option.some.inj hmul]
        rfl
      · cases hmul
  · intro h0 h63
    exact index2ChessPos_on_board index h0 h63

/-- C10 at the index 14: it splits into file 6, rank 1, which is on the board,
and is put back together without overflow. -/
theorem index2ChessPos_chessPos2Index_witness :
    (INT_MIN ≤ (14 : Int) ∧ (14 : Int) ≤ INT_MAX) ∧
    index2ChessPos 14 = { x := 6, y := 1 } ∧
    chessPos2Index (index2ChessPos 14) = some 14 ∧
    (0 ≤ (index2ChessPos 14).x ∧ (index2ChessPos 14).x ≤ 7) :=
  ⟨by decide, by decide,
    (index2ChessPos_chessPos2Index 14 (by decide)).2.1,
    ((index2ChessPos_chessPos2Index 14 (by decide)).2.2.2.2 (by decide) (by decide)).1⟩

end Chess
